import Mathlib

/-!
Verification of the pathfinder-rag retrieval-and-grounding pipeline.

The definitions below are a shallow embedding of the Python sources:
`src/config.py`, `src/pipeline.py`, `src/retrieval.py`, `src/generator.py`.
Python strings are modelled as Lean `String` (a wrapper around `List Char`),
Python dicts for chunks as a `Chunk` structure whose fields are `Option`al
(a missing dict key is `none`), and the external collaborators (the BM25
library, the sentence-transformer embedder, the HTTP LLM calls and the
strict JSON parser `json.loads`) as explicit function parameters, so every
statement quantifies over their possible behaviours.
-/

/-! ### String primitives (Python `str` operations) -/

/-- Python `s.lower()`.  `Char.toLower` lowers the ASCII range; every string
literal the pipeline matches against (age bands, income types, marker
phrases) is ASCII, so non-ASCII case folding is irrelevant to the claims. -/
def lower_str (s : String) : String := String.mk (s.data.map Char.toLower)

/-- `prefixCheck p l` is true when `p` is a prefix of `l` (char-by-char). -/
def prefixCheck : List Char → List Char → Bool
  | [], _ => true
  | _ :: _, [] => false
  | a :: as, b :: bs => a = b && prefixCheck as bs

/-- `containsSeq pat l` is true when `pat` occurs contiguously in `l`:
Python's `pat in l` for strings. -/
def containsSeq (pat : List Char) : List Char → Bool
  | [] => pat.isEmpty
  | c :: cs => prefixCheck pat (c :: cs) || containsSeq pat cs

/-- Python `needle in haystack` on strings. -/
def str_contains (haystack needle : String) : Bool :=
  containsSeq needle.data haystack.data

/-- Python `s.replace(a, b)` for a single-character pattern `a` and
single-character replacement `b` (a character map). -/
def replace_char (a b : Char) (l : List Char) : List Char :=
  l.map fun c => if c = a then b else c

/-! ### Configuration (`src/config.py`) -/

def SUPPORTED_AGE_RANGES : List String :=
  ["18-24", "25-34", "35-44", "45-54", "55-64", "65+"]

def SUPPORTED_INCOME_TYPES : List String :=
  ["Salary", "Salary + Bonus", "Hourly + Overtime", "Commission",
   "Self-Employed", "Other Employment Income"]

def TOP_K : Nat := 5

def BM25_TOP_N : Nat := 10

/-! ### Data model -/

/-- A corpus chunk: the Python dict `{chunk_id, heading, text}`.  Fields are
`Option`al because the pipeline accesses them with `dict.get`, which yields
`None` for a missing key. -/
structure Chunk where
  chunk_id : Option String
  heading : Option String
  text : Option String
deriving DecidableEq, Repr

/-! ### `src/pipeline.py`: age variants, matching, normalization, filtering -/

/-- The en dash character `–` (U+2013). -/
def en_dash : Char := Char.ofNat 0x2013

def en_dash_str : String := String.mk [en_dash]

/-- `_age_variants` (src/pipeline.py:27-37).  `split_first_dash` models
Python `age_range.split("-", 1)`. -/
def split_first_dash (s : String) : String × String :=
  (String.mk (s.data.takeWhile (fun c => ¬ (c = '-'))),
   String.mk (((s.data.dropWhile (fun c => ¬ (c = '-')))).drop 1))

def age_variants (age_range : String) : List String :=
  if str_contains age_range "-" then
    let a := (split_first_dash age_range).1
    let b := (split_first_dash age_range).2
    [age_range,
     String.mk (replace_char '-' en_dash age_range.data),
     a ++ " to " ++ b,
     a ++ " to " ++ b ++ " years",
     a ++ "-" ++ b ++ " years",
     a ++ en_dash_str ++ b ++ " years"]
  else [age_range]

/-- `_matches_any` (src/pipeline.py:40-42). -/
def matches_any (haystack : String) (needles : List String) : Bool :=
  needles.any fun n => str_contains (lower_str haystack) (lower_str n)

/-- The haystack `f"{c.get('heading', '')}\n{c.get('text', '')}"` used by
`_best_chunk_by_text`. -/
def chunk_heading_text (c : Chunk) : String :=
  (c.heading.getD "") ++ "\n" ++ (c.text.getD "")

/-- `_best_chunk_by_text` (src/pipeline.py:45-57): first chunk in corpus
order whose heading-or-text contains any needle. -/
def best_chunk_by_text : List Chunk → List String → Option Chunk
  | [], _ => none
  | c :: rest, needles =>
    if matches_any (chunk_heading_text c) needles then some c
    else best_chunk_by_text rest needles

/-- The dash-like characters replaced by `_normalize_age_text`, in source
order: en dash, em dash, minus sign, figure dash, horizontal bar. -/
def dash_chars : List Char :=
  [Char.ofNat 0x2013, Char.ofNat 0x2014, Char.ofNat 0x2212,
   Char.ofNat 0x2012, Char.ofNat 0x2015]

/-- Python `t.replace(" to ", "-")`: a left-to-right, non-overlapping scan.
Lists shorter than the four-character pattern are returned unchanged; at
each position either the pattern ` to ` matches (it is consumed and the
scan resumes after it) or the scan advances one character. -/
def replaceToDash : List Char → List Char
  | [] => []
  | [c] => [c]
  | [c1, c2] => [c1, c2]
  | [c1, c2, c3] => [c1, c2, c3]
  | c1 :: c2 :: c3 :: c4 :: rest =>
    if c1 = ' ' ∧ c2 = 't' ∧ c3 = 'o' ∧ c4 = ' '
    then '-' :: replaceToDash rest
    else c1 :: replaceToDash (c2 :: c3 :: c4 :: rest)

/-- `_normalize_age_text` (src/pipeline.py:60-70): lowercase, collapse the
five dash variants to `-`, then collapse `" to "` to `"-"`. -/
def normalize_age_text (s : String) : String :=
  String.mk (replaceToDash
    (dash_chars.foldl (fun acc ch => replace_char ch '-' acc)
      (s.data.map Char.toLower)))

/-- The age-band literals hard-coded inside `_is_other_age_chunk`. -/
def AGE_BANDS : List String :=
  ["18-24", "25-34", "35-44", "45-54", "55-64", "65+"]

/-- The haystack `f"{heading}\n{text}"` built by `_is_other_age_chunk`,
with heading and text normalized separately. -/
def age_haystack (c : Chunk) : String :=
  normalize_age_text (c.heading.getD "") ++ "\n" ++
    normalize_age_text (c.text.getD "")

/-- `_is_other_age_chunk` (src/pipeline.py:73-92): keep (return false) a
chunk mentioning no age band; otherwise drop it exactly when no normalized
variant of the requested range occurs in the normalized haystack. -/
def is_other_age_chunk (c : Chunk) (age_range : String) : Bool :=
  if ¬ (AGE_BANDS.any fun band => str_contains (age_haystack c) band) then false
  else ¬ (((age_variants age_range).map normalize_age_text).any fun v =>
    str_contains (age_haystack c) v)

/-- The leakage filter applied to the retrieved list before context
assembly (src/pipeline.py:182): `[c for c in retrieved if not
_is_other_age_chunk(c, age_range)]`. -/
def filter_other_age (retrieved : List Chunk) (age_range : String) : List Chunk :=
  retrieved.filter fun c => ¬ (is_other_age_chunk c age_range = true)

/-! ### `_safe_context_set` (src/pipeline.py:95-129) -/

/-- The closure `add` of `_safe_context_set`: state is `(final, seen)`.
A `None` chunk, a chunk without a `chunk_id`, a chunk whose `chunk_id` is
falsy (empty), and a chunk whose `chunk_id` was already seen are all
skipped. -/
def ctx_add (st : List Chunk × List String) (och : Option Chunk) :
    List Chunk × List String :=
  match och with
  | none => st
  | some ch =>
    match ch.chunk_id with
    | none => st
    | some cid =>
      if ¬ (cid = "") ∧ ¬ (cid ∈ st.2) then (st.1 ++ [ch], cid :: st.2)
      else st

/-- The fill loop of `_safe_context_set`: add each retrieved chunk in
order, stopping once `final` has reached `top_k` entries (the check runs
after each add, as in the source). -/
def ctx_fill (top_k : Nat) : List Chunk → (List Chunk × List String) →
    List Chunk × List String
  | [], st => st
  | c :: rest, st =>
    let st2 := ctx_add st (some c)
    if top_k ≤ st2.1.length then st2 else ctx_fill top_k rest st2

/-- `_safe_context_set`: priority insertion (age, income, rationale), then
fill from the retrieved list, then truncate to `top_k`. -/
def safe_context_set (retrieved : List Chunk)
    (age_chunk income_chunk rationale_chunk : Option Chunk)
    (top_k : Nat) : List Chunk :=
  ((ctx_fill top_k retrieved
    (ctx_add (ctx_add (ctx_add ([], []) age_chunk) income_chunk)
      rationale_chunk)).1).take top_k

/-! ### `src/retrieval.py`: HybridRetriever -/

/-- Python `query.lower().split()`: split on whitespace runs, no empty
tokens.  (Only `' '` need be treated as whitespace: no claim depends on
tokenization, and the scorer below is quantified over anyway.) -/
def py_split_aux : List Char → List Char → List String
  | [], acc => if acc.isEmpty then [] else [String.mk acc.reverse]
  | c :: cs, acc =>
    if c = ' ' then
      if acc.isEmpty then py_split_aux cs []
      else String.mk acc.reverse :: py_split_aux cs []
    else py_split_aux cs (c :: acc)

def tokenize_query (s : String) : List String :=
  py_split_aux (lower_str s).data []

/-- The retriever state built by `HybridRetriever.__init__`.  The two
scoring collaborators are external libraries whose code is not part of
this repository, so they are modelled as function-valued fields:
`lexScore q i` is entry `i` of `self.bm25.get_scores(q)` (rank_bm25) and
`semSim query i` is `np.dot(query_embedding, self.embeddings[i])`
(sentence-transformers; both vectors L2-normalized, so this is cosine
similarity).  Score values are abstracted to `Int` since only their
comparisons influence the control flow under verification. -/
structure HybridRetriever where
  chunks : List Chunk
  lexScore : List String → Nat → Int
  semSim : String → Nat → Int

/-- Modelled from the spec: `self.bm25.get_scores(tokenized_query)` is the
external rank_bm25 library, absent from src/.  Per §4.1 it is a pure,
total scoring function returning one score per corpus chunk (all-zero and
non-raising on an empty corpus, which here is the empty list). -/
def bm25_scores_list (rt : HybridRetriever) (q : List String) : List Int :=
  (List.range rt.chunks.length).map (rt.lexScore q)

/-- Stable ascending insertion (by score) for `(index, score)` pairs. -/
def insert_asc_pair (p : Nat × Int) : List (Nat × Int) → List (Nat × Int)
  | [] => [p]
  | q :: t => if p.2 ≤ q.2 then p :: q :: t else q :: insert_asc_pair p t

/-- `np.argsort(scores)`: indices ordered by ascending score.  numpy's
default introsort leaves the relative order of equal scores unspecified;
the stable refinement (numpy `kind='stable'`) is taken here.  No claim
depends on the order among equal lexical scores. -/
def argsort_asc (scores : List Int) : List Nat :=
  ((scores.enum.foldr insert_asc_pair []).map fun p => p.1)

/-- Python `a[-n:]`: the last `n` elements, or the whole list when
`n = 0` (since `a[-0:]` is `a[0:]`). -/
def slice_last (l : List Nat) (n : Nat) : List Nat :=
  if n = 0 then l else l.drop (l.length - n)

/-- Descending lexicographic comparison on `(similarity, index)` pairs:
Python tuple comparison under `sort(reverse=True)`. -/
def tuple_ge (p q : Int × Nat) : Bool :=
  decide (q.1 < p.1 ∨ (p.1 = q.1 ∧ q.2 ≤ p.2))

def insert_pair_desc (p : Int × Nat) : List (Int × Nat) → List (Int × Nat)
  | [] => [p]
  | q :: t => if tuple_ge p q then p :: q :: t else q :: insert_pair_desc p t

/-- `scored.sort(reverse=True)`.  Python's stable sort and this insertion
sort agree exactly: the sort key is the whole `(sim, idx)` tuple, so
elements comparing equal are identical and stability is unobservable. -/
def sort_pairs_desc (l : List (Int × Nat)) : List (Int × Nat) :=
  l.foldr insert_pair_desc []

/-- The `scored` list of `HybridRetriever.retrieve`: `(sim, idx)` for each
BM25-preselected candidate index. -/
def retrieve_scored (rt : HybridRetriever) (query : String)
    (bm25_top_n : Nat) : List (Int × Nat) :=
  let bm25_scores := bm25_scores_list rt (tokenize_query query)
  let bm25_top_idx := slice_last (argsort_asc bm25_scores) bm25_top_n
  bm25_top_idx.map fun idx => (rt.semSim query idx, idx)

/-- The sorted `scored` list (retrieval step 3 before truncation). -/
def retrieve_sorted (rt : HybridRetriever) (query : String)
    (bm25_top_n : Nat) : List (Int × Nat) :=
  sort_pairs_desc (retrieve_scored rt query bm25_top_n)

/-- `HybridRetriever.retrieve` (src/retrieval.py:16-31).  `self.chunks[i]`
always indexes in range; `getD` with a dummy chunk makes the lookup
total. -/
def HybridRetriever.retrieve (rt : HybridRetriever) (query : String)
    (top_k bm25_top_n : Nat) : List Chunk :=
  (((retrieve_sorted rt query bm25_top_n).take top_k).map
    fun p => rt.chunks.getD p.2 ⟨none, none, none⟩)

/-! ### `src/generator.py`: structured-output recovery -/

/-- JSON values, as decoded by Python `json.loads`.  Numeric values never
influence the recovery control flow, so numbers are abstracted to `Int`;
dicts preserve insertion order, hence an association list. -/
inductive Json where
  | null : Json
  | bool (b : Bool) : Json
  | num (n : Int) : Json
  | str (s : String) : Json
  | arr (items : List Json) : Json
  | obj (fields : List (String × Json)) : Json

/-- The terminal recovery failure of §4.5: in the source, the
`json.JSONDecodeError` / `ValueError` escaping `generate_with_llm` after
all parse attempts fail. -/
inductive RecoveryError where
  | malformedGenerationOutput : RecoveryError
deriving DecidableEq, Repr

/-- `_extract_json_object` (src/generator.py:12-18): slice from the first
`{` to the last `}` inclusive; `none` models the `ValueError` when no
brace is found or the last `}` does not come after the first `{`. -/
def extract_json_object (s : String) : Option String :=
  let cs := s.data
  let obrace := Char.ofNat 123
  let cbrace := Char.ofNat 125
  match cs.indexOf? obrace, (cs.reverse.indexOf? cbrace) with
  | some i, some j' =>
    let j := cs.length - 1 - j'
    if j ≤ i then none
    else some (String.mk ((cs.drop i).take (j + 1 - i)))
  | _, _ => none

/-- The parse-recovery cascade of `generate_with_llm`
(src/generator.py:122-141), instrumented with the number of `repair_fn`
invocations.  `parse` stands for the strict parser `json.loads` (Python
stdlib, external to the repository): `none` models a `JSONDecodeError`.
`repairFn` stands for `_repair_json_with_llm`, itself a single
`_llm_generate` call.  The stages, in source order: strict parse of the
raw text; strict parse of the brace-extracted slice; one repair call,
then strict parse of the repaired text; finally strict parse of the
brace-extracted slice of the repaired text.  Any failure after the last
stage is the terminal `MalformedGenerationOutput`. -/
def recover_aux (parse : String → Option Json) (raw : String)
    (repairFn : String → String) : Except RecoveryError Json × Nat :=
  match parse raw with
  | some v => (Except.ok v, 0)
  | none =>
    let attempt2 : Option Json :=
      match extract_json_object raw with
      | none => none
      | some extracted => parse extracted
    match attempt2 with
    | some v => (Except.ok v, 0)
    | none =>
      let repaired := repairFn raw
      match parse repaired with
      | some v => (Except.ok v, 1)
      | none =>
        match extract_json_object repaired with
        | none => (Except.error RecoveryError.malformedGenerationOutput, 1)
        | some extracted =>
          match parse extracted with
          | some v => (Except.ok v, 1)
          | none => (Except.error RecoveryError.malformedGenerationOutput, 1)

/-- The recovered value: what `generate_with_llm` returns (or the error it
raises) after `raw` came back from the generation call. -/
def recover (parse : String → Option Json) (raw : String)
    (repairFn : String → String) : Except RecoveryError Json :=
  (recover_aux parse raw repairFn).1

/-- How many times the recovery cascade invoked `repair_fn`. -/
def recover_repair_calls (parse : String → Option Json) (raw : String)
    (repairFn : String → String) : Nat :=
  (recover_aux parse raw repairFn).2

/-- Follows the spec's words (§4.5 schema validation), for comparison with
the code: the decoded value must be an object with exactly the keys
`suggestions` (a sequence of objects each with string `title` and `why`)
and `follow_up_questions` (a sequence of strings).  The source performs
no such validation; this definition exists only to state that fact. -/
def spec_schema_valid (j : Json) : Bool :=
  match j with
  | Json.obj fields =>
    (fields.map Prod.fst) = ["suggestions", "follow_up_questions"] &&
    (match fields with
     | [(_, Json.arr sugg), (_, Json.arr fups)] =>
       (sugg.all fun s =>
         match s with
         | Json.obj [(k1, Json.str _), (k2, Json.str _)] =>
           k1 = "title" && k2 = "why"
         | _ => false) &&
       (fups.all fun q => match q with | Json.str _ => true | _ => false)
     | _ => false)
  | _ => false

/-! ### `generate_pathfinder_suggestions` (src/pipeline.py:132-209) -/

/-- The parsed generation output as consumed by the pipeline:
`gen.get("suggestions", [])` and `gen.get("follow_up_questions", [])`. -/
structure GenOut where
  suggestions : List Json
  follow_up_questions : List Json

/-- One entry of `result["retrieved_evidence"]`. -/
structure Evidence where
  chunk_id : String
  text_excerpt : String
  reason_used : String

/-- The pipeline's external collaborators: `ingest_docx` (the corpus),
the built retriever's `retrieve` method, and `generate_with_llm`'s
already-recovered output.  `generate_pathfinder_suggestions` is a pure
function of these. -/
structure Oracles where
  allChunks : List Chunk
  retrieveFn : String → Nat → Nat → List Chunk
  generateFn : List Chunk → String → String → GenOut

/-- The response dict.  `insufficient_context` and `clarifying_questions`
model optional keys: `none` means the key is absent. -/
structure PipelineResult where
  profile_age_range : String
  profile_income_type : String
  suggestions : List Json
  follow_up_questions : List Json
  retrieved_evidence : List Evidence
  insufficient_context : Option Bool
  clarifying_questions : Option (List String)

def pipeline_base (age_range income_type : String) : PipelineResult :=
  { profile_age_range := age_range
    profile_income_type := income_type
    suggestions := []
    follow_up_questions := []
    retrieved_evidence := []
    insufficient_context := none
    clarifying_questions := none }

/-- `", ".join(...)`. -/
def join_comma (l : List String) : String := String.intercalate ", " l

/-- `generate_pathfinder_suggestions` (src/pipeline.py:132-209), with the
external collaborators supplied as `Oracles`.  The module-level caches of
`_load_retriever` only memoize these collaborators and are not modelled. -/
def generate_pathfinder_suggestions (o : Oracles)
    (age_range income_type : String) : PipelineResult :=
  let result := pipeline_base age_range income_type
  if ¬ (age_range ∈ SUPPORTED_AGE_RANGES) ∨
      ¬ (income_type ∈ SUPPORTED_INCOME_TYPES) then
    { result with
      insufficient_context := some true
      clarifying_questions := some
        ["Can you confirm the client’s age range from the supported options (" ++
          join_comma SUPPORTED_AGE_RANGES ++ ")?",
         "Can you confirm which income type best matches the client’s primary income (" ++
          join_comma SUPPORTED_INCOME_TYPES ++ ")?"] }
  else
    let age_q := String.intercalate " " (age_variants age_range)
    let query := "Age range " ++ age_q ++ " Age " ++ age_q ++
      " Income Type " ++ income_type
    let retrieved := o.retrieveFn query TOP_K BM25_TOP_N
    if retrieved = [] then
      { result with
        insufficient_context := some true
        clarifying_questions := some
          ["I couldn’t retrieve relevant sections from the training document for this profile. Can you confirm the age range?",
           "Can you confirm which income type best matches the client’s primary income?"] }
    else
      let age_chunk := best_chunk_by_text o.allChunks (age_variants age_range)
      let income_chunk :=
        match best_chunk_by_text o.allChunks [income_type] with
        | some c => some c
        | none => best_chunk_by_text o.allChunks ["income type"]
      let rationale_chunk := best_chunk_by_text o.allChunks ["what is your age range"]
      let retrieved_filtered := filter_other_age retrieved age_range
      let final_context := safe_context_set retrieved_filtered age_chunk
        income_chunk rationale_chunk TOP_K
      let gen := o.generateFn final_context age_range income_type
      { result with
        suggestions := gen.suggestions.take 5
        follow_up_questions := gen.follow_up_questions
        retrieved_evidence := final_context.map fun c =>
          { chunk_id := c.chunk_id.getD ""
            text_excerpt :=
              match c.text with
              | some t => if ¬ (t = "") then String.mk (t.data.take 300) ++ "..." else ""
              | none => ""
            reason_used := "Retrieved as relevant to the provided age range and/or income type" } }

/-! ### Concrete instances used by witnesses and counterexamples -/

/-- A strict parser that fails on every input. -/
def parse_none : String → Option Json := fun _ => none

/-- A strict parser that decodes every input to the non-schema value `3`. -/
def parse_num3 : String → Option Json := fun _ => some (Json.num 3)

/-- A strict parser that decodes every input to the empty object. -/
def parse_empty_obj : String → Option Json := fun _ => some (Json.obj [])

/-- A strict parser that fails on everything except the literal `"y"`,
which decodes to the non-schema value `3`: drives the cascade into the
repair stage when the raw text is `"x"` and the repair returns `"y"`. -/
def parse_only_y : String → Option Json :=
  fun s => if s = "y" then some (Json.num 3) else none

/-- A trivial oracle set: empty corpus, empty retrieval, empty generation. -/
def oracle0 : Oracles :=
  { allChunks := []
    retrieveFn := fun _ _ _ => []
    generateFn := fun _ _ _ => ⟨[], []⟩ }

/-- A second, observably different oracle set. -/
def oracle1 : Oracles :=
  { allChunks := [⟨some "z", some "Z", some "zzz"⟩]
    retrieveFn := fun _ _ _ => [⟨some "z", some "Z", some "zzz"⟩]
    generateFn := fun _ _ _ => ⟨[Json.null], [Json.null]⟩ }

/-- Invariant of the `_safe_context_set` state `(final, seen)`: the listed
chunk ids are distinct, and each listed chunk carries a non-empty id that
has been recorded in `seen`. -/
def ctx_inv (st : List Chunk × List String) : Prop :=
  (st.1.map Chunk.chunk_id).Nodup ∧
  ∀ c ∈ st.1, ∃ cid, c.chunk_id = some cid ∧ ¬ (cid = "") ∧ cid ∈ st.2

/-- The ordering that retrieval step 3 actually establishes: descending
similarity, ties broken by descending candidate index. -/
def pair_dominates (p q : Int × Nat) : Prop :=
  q.1 ≤ p.1 ∧ (p.1 = q.1 → q.2 ≤ p.2)

/-- A chunk whose id is present but empty (falsy in Python). -/
def c_empty_id : Chunk := ⟨some "", some "h", some "t"⟩

/-- A chunk mentioning both the 55-64 band and the 18-24 band. -/
def c_both_bands : Chunk :=
  ⟨some "c-both", some "", some "Guidance for ages 18-24 and 55-64 clients"⟩

/-- A chunk mentioning only the 55-64 band. -/
def c_only_55 : Chunk := ⟨some "c-55", some "", some "Clients 55-64 overview"⟩

/-- A chunk mentioning no age band at all. -/
def c_general : Chunk := ⟨some "c-gen", some "", some "General mortgage advice"⟩

/-- A chunk whose heading writes 45-54 with the minus sign U+2212. -/
def c_minus_dash : Chunk :=
  ⟨some "c-minus", some ("Ages 45" ++ String.mk [Char.ofNat 0x2212] ++ "54"),
   some "segment guidance"⟩

/-- A chunk whose heading writes 45-54 with the em dash U+2014. -/
def c_em_dash : Chunk :=
  ⟨some "c-em", some ("Ages 45" ++ String.mk [Char.ofNat 0x2014] ++ "54"),
   some "segment guidance"⟩

/-- A chunk whose heading writes 45-54 with the en dash U+2013. -/
def c_en_dash : Chunk :=
  ⟨some "c-en", some ("Ages 45" ++ String.mk [Char.ofNat 0x2013] ++ "54"),
   some "segment guidance"⟩

def c_r0 : Chunk := ⟨some "r0", none, some "alpha"⟩

def c_r1 : Chunk := ⟨some "r1", none, some "beta"⟩

/-- A two-chunk retriever whose candidates end up with equal cosine
similarity (distinct lexical scores keep the BM25 pre-filter tie-free). -/
def rt_tie : HybridRetriever :=
  { chunks := [c_r0, c_r1]
    lexScore := fun _ i => Int.ofNat i
    semSim := fun _ _ => 7 }

/-- A retriever over the empty corpus. -/
def rt_empty : HybridRetriever :=
  { chunks := []
    lexScore := fun _ _ => 0
    semSim := fun _ _ => 0 }

example : str_contains "ages 55-64 only" "55-64" = true := by decide
example : normalize_age_text "Clients 55–64 only" = "clients 55-64 only" := by decide
example : normalize_age_text "18 to 24" = "18-24" := by decide
example :
    age_variants "18-24" =
      ["18-24", "18–24", "18 to 24", "18 to 24 years", "18-24 years",
       "18–24 years"] := by decide
example :
    is_other_age_chunk ⟨some "c", some "", some "Clients 55–64"⟩ "18-24" = true := by
  decide
example :
    is_other_age_chunk ⟨some "c", some "", some "general advice"⟩ "18-24" = false := by
  decide
example :
    safe_context_set [⟨some "a", none, none⟩, ⟨some "b", none, none⟩] none none none 1 =
      [⟨some "a", none, none⟩] := by decide

/-! ### Claim theorems: Output Recovery (C4, C5, C6) -/

/-- Claim C4: for every raw text and repair function such that the direct
strict parse, the brace-extraction parse, the strict parse of the repaired
text and the brace-extraction parse of the repaired text all fail, the
recovery cascade fails with the `MalformedGenerationOutput` error and
never returns a partial or guessed structure. -/
theorem recovery_terminal_failure (parse : String → Option Json)
    (raw : String) (repairFn : String → String)
    (h1 : parse raw = none)
    (h2 : ∀ ex, extract_json_object raw = some ex → parse ex = none)
    (h3 : parse (repairFn raw) = none)
    (h4 : ∀ ex, extract_json_object (repairFn raw) = some ex → parse ex = none) :
    recover parse raw repairFn =
      Except.error RecoveryError.malformedGenerationOutput := by
  unfold recover recover_aux
  rw [h1]
  cases hE : extract_json_object raw with
  | none =>
    simp only [hE, h3]
    cases hE2 : extract_json_object (repairFn raw) with
    | none => simp only [hE2]
    | some ex2 => simp only [hE2, h4 ex2 hE2]
  | some ex =>
    simp only [hE, h2 ex hE, h3]
    cases hE2 : extract_json_object (repairFn raw) with
    | none => simp only [hE2]
    | some ex2 => simp only [hE2, h4 ex2 hE2]

/-- Witness for C4: a parser failing everywhere (e.g. on `"not json at
all"` and anything an identity repair returns) drives the cascade into the
terminal error. -/
theorem recovery_terminal_failure_witness :
    recover parse_none "not json at all" (fun t => t) =
      Except.error RecoveryError.malformedGenerationOutput :=
  recovery_terminal_failure parse_none "not json at all" (fun t => t) rfl
    (fun _ _ => rfl) rfl (fun _ _ => rfl)

/-- Claim C5: the recovery cascade invokes the repair function at most
once; and when the raw text already parses directly, the repair function
is never invoked and the result is exactly the direct parse. -/
theorem recovery_single_repair (parse : String → Option Json)
    (raw : String) (repairFn : String → String) :
    recover_repair_calls parse raw repairFn ≤ 1 ∧
    (∀ v, parse raw = some v →
      recover_repair_calls parse raw repairFn = 0 ∧
      recover parse raw repairFn = Except.ok v) := by
  constructor
  · unfold recover_repair_calls recover_aux
    cases h1 : parse raw with
    | some v => simp
    | none =>
      cases hE : extract_json_object raw with
      | none =>
        simp only [hE]
        cases h3 : parse (repairFn raw) with
        | some v => simp
        | none =>
          simp only [h3]
          cases hE2 : extract_json_object (repairFn raw) with
          | none => simp [hE2]
          | some ex2 => cases h4 : parse ex2 <;> simp [hE2, h4]
      | some ex =>
        simp only [hE]
        cases h2 : parse ex with
        | some v => simp
        | none =>
          simp only [h2]
          cases h3 : parse (repairFn raw) with
          | some v => simp
          | none =>
            simp only [h3]
            cases hE2 : extract_json_object (repairFn raw) with
            | none => simp [hE2]
            | some ex2 => cases h4 : parse ex2 <;> simp [hE2, h4]
  · intro v hv
    unfold recover recover_repair_calls recover_aux
    rw [hv]
    exact ⟨rfl, rfl⟩

/-- Witness for C5: on a directly parsable input the repair count is zero
and the result is the direct parse. -/
theorem recovery_single_repair_witness :
    recover_repair_calls parse_empty_obj "x" (fun t => t) = 0 ∧
    recover parse_empty_obj "x" (fun t => t) = Except.ok (Json.obj []) :=
  (recovery_single_repair parse_empty_obj "x" (fun t => t)).2 (Json.obj []) rfl

/-- Counterexample to claim C6: the source applies no schema validation
after a successful parse — a decoded value violating the spec's schema
(here the bare number `3`) is returned as a success. -/
theorem recovery_returns_schema_invalid :
    recover parse_num3 "x" (fun t => t) = Except.ok (Json.num 3) ∧
    spec_schema_valid (Json.num 3) = false :=
  ⟨rfl, rfl⟩

/-- Claim C6 as amended: after a successful parse in ANY recovery state —
PARSE_DIRECT, EXTRACT_OBJECT on the raw text, the strict parse of the
repaired text, or EXTRACT_OBJECT on the repaired text — the decoded
value is returned directly, with no schema validation applied, whatever
the value is. -/
theorem recovery_no_schema_validation (parse : String → Option Json)
    (raw : String) (repairFn : String → String) (v : Json) :
    (parse raw = some v → recover parse raw repairFn = Except.ok v) ∧
    (parse raw = none →
      ∀ ex, extract_json_object raw = some ex → parse ex = some v →
        recover parse raw repairFn = Except.ok v) ∧
    (parse raw = none →
      (∀ ex, extract_json_object raw = some ex → parse ex = none) →
      parse (repairFn raw) = some v →
      recover parse raw repairFn = Except.ok v) ∧
    (parse raw = none →
      (∀ ex, extract_json_object raw = some ex → parse ex = none) →
      parse (repairFn raw) = none →
      ∀ ex2, extract_json_object (repairFn raw) = some ex2 → parse ex2 = some v →
        recover parse raw repairFn = Except.ok v) := by
  refine ⟨?_, ?_, ?_, ?_⟩
  · intro hv
    unfold recover recover_aux
    rw [hv]
  · intro h1 ex hE hv
    unfold recover recover_aux
    rw [h1]
    simp only [hE, hv]
  · intro h1 h2 hrep
    unfold recover recover_aux
    rw [h1]
    cases hE : extract_json_object raw with
    | none => simp only [hE, hrep]
    | some ex => simp only [hE, h2 ex hE, hrep]
  · intro h1 h2 h3 ex2 hE2 hv
    unfold recover recover_aux
    rw [h1]
    cases hE : extract_json_object raw with
    | none => simp only [hE, h3, hE2, hv]
    | some ex => simp only [hE, h2 ex hE, h3, hE2, hv]

/-- Witness for the amended C6: the schema-violating value `3` flows
through unchanged both from a PARSE_DIRECT success and from a
REPAIR-stage success (raw `"x"` fails, the repaired `"y"` parses). -/
theorem recovery_no_schema_validation_witness :
    recover parse_num3 "x" (fun t => t) = Except.ok (Json.num 3) ∧
    recover parse_only_y "x" (fun _ => "y") = Except.ok (Json.num 3) := by
  constructor
  · exact (recovery_no_schema_validation parse_num3 "x" (fun t => t) (Json.num 3)).1 rfl
  · refine (recovery_no_schema_validation parse_only_y "x" (fun _ => "y")
      (Json.num 3)).2.2.1 rfl ?_ rfl
    intro ex hex
    rw [show extract_json_object "x" = none from by decide] at hex
    exact Option.noConfusion hex

/-! ### Claim theorem: profile gating (C3) -/

/-- Claim C3: for an age range or income type outside the supported
enumerations, the pipeline reports `insufficient_context = true` with
exactly two clarifying questions, and never invokes retrieval (nor any
other collaborator): the result is identical for every choice of
oracles, because the function short-circuits before consulting them. -/
theorem pipeline_invalid_profile_short_circuits (o : Oracles)
    (age_range income_type : String)
    (h : ¬ (age_range ∈ SUPPORTED_AGE_RANGES) ∨
      ¬ (income_type ∈ SUPPORTED_INCOME_TYPES)) :
    (generate_pathfinder_suggestions o age_range income_type).insufficient_context =
      some true ∧
    (∃ qs, (generate_pathfinder_suggestions o age_range income_type).clarifying_questions =
      some qs ∧ qs.length = 2) ∧
    (∀ o' : Oracles, generate_pathfinder_suggestions o age_range income_type =
      generate_pathfinder_suggestions o' age_range income_type) := by
  refine ⟨?_, ?_, ?_⟩
  · unfold generate_pathfinder_suggestions
    rw [if_pos h]
  · unfold generate_pathfinder_suggestions
    rw [if_pos h]
    exact ⟨_, rfl, rfl⟩
  · intro o'
    unfold generate_pathfinder_suggestions
    rw [if_pos h, if_pos h]

/-- Witness for C3: the call `generate_pathfinder_suggestions("99-100",
"Salary")` short-circuits with two clarifying questions, independent of
every collaborator. -/
theorem pipeline_invalid_profile_witness :
    (generate_pathfinder_suggestions oracle0 "99-100" "Salary").insufficient_context =
      some true ∧
    (∃ qs, (generate_pathfinder_suggestions oracle0 "99-100" "Salary").clarifying_questions =
      some qs ∧ qs.length = 2) ∧
    generate_pathfinder_suggestions oracle0 "99-100" "Salary" =
      generate_pathfinder_suggestions oracle1 "99-100" "Salary" := by
  have h := pipeline_invalid_profile_short_circuits oracle0 "99-100" "Salary"
    (Or.inl (by decide))
  exact ⟨h.1, h.2.1, h.2.2 oracle1⟩

/-! ### Context-set lemmas (shared helpers) -/

theorem ctx_inv_nil : ctx_inv ([], []) := by
  constructor
  · simp
  · intro c hc
    simp at hc

theorem ctx_add_none (st : List Chunk × List String) : ctx_add st none = st := rfl

theorem ctx_add_no_id (st : List Chunk × List String) (ch : Chunk)
    (hid : ch.chunk_id = none) : ctx_add st (some ch) = st := by
  simp [ctx_add, hid]

theorem ctx_add_new (st : List Chunk × List String) (ch : Chunk) (cid : String)
    (hid : ch.chunk_id = some cid) (h1 : ¬ (cid = "")) (h2 : ¬ (cid ∈ st.2)) :
    ctx_add st (some ch) = (st.1 ++ [ch], cid :: st.2) := by
  simp [ctx_add, hid, h1, h2]

theorem ctx_add_old (st : List Chunk × List String) (ch : Chunk) (cid : String)
    (hid : ch.chunk_id = some cid) (h : cid = "" ∨ cid ∈ st.2) :
    ctx_add st (some ch) = st := by
  cases h with
  | inl h => simp [ctx_add, hid, h]
  | inr h => simp [ctx_add, hid, h]

theorem ctx_add_shape (st : List Chunk × List String) (och : Option Chunk) :
    ∃ ext, (ctx_add st och).1 = st.1 ++ ext ∧ ext.Sublist och.toList := by
  cases och with
  | none => exact ⟨[], by simp [ctx_add_none]⟩
  | some ch =>
    cases hid : ch.chunk_id with
    | none => exact ⟨[], by simp [ctx_add_no_id st ch hid]⟩
    | some cid =>
      by_cases h1 : cid = ""
      · exact ⟨[], by simp [ctx_add_old st ch cid hid (Or.inl h1)]⟩
      · by_cases h2 : cid ∈ st.2
        · exact ⟨[], by simp [ctx_add_old st ch cid hid (Or.inr h2)]⟩
        · exact ⟨[ch], by simp [ctx_add_new st ch cid hid h1 h2]⟩

theorem ctx_add_seen_mono (st : List Chunk × List String) (och : Option Chunk) :
    ∀ s ∈ st.2, s ∈ (ctx_add st och).2 := by
  intro s hs
  cases och with
  | none => exact hs
  | some ch =>
    cases hid : ch.chunk_id with
    | none => rw [ctx_add_no_id st ch hid]; exact hs
    | some cid =>
      by_cases h1 : cid = ""
      · rw [ctx_add_old st ch cid hid (Or.inl h1)]; exact hs
      · by_cases h2 : cid ∈ st.2
        · rw [ctx_add_old st ch cid hid (Or.inr h2)]; exact hs
        · rw [ctx_add_new st ch cid hid h1 h2]; exact List.mem_cons_of_mem cid hs

theorem ctx_add_inv (st : List Chunk × List String) (och : Option Chunk)
    (h : ctx_inv st) : ctx_inv (ctx_add st och) := by
  cases och with
  | none => exact h
  | some ch =>
    cases hid : ch.chunk_id with
    | none => rw [ctx_add_no_id st ch hid]; exact h
    | some cid =>
      by_cases h1 : cid = ""
      · rw [ctx_add_old st ch cid hid (Or.inl h1)]; exact h
      · by_cases h2 : cid ∈ st.2
        · rw [ctx_add_old st ch cid hid (Or.inr h2)]; exact h
        · rw [ctx_add_new st ch cid hid h1 h2]
          constructor
          · rw [List.map_append, List.nodup_append]
            refine ⟨h.1, by simp, ?_⟩
            intro x hx hx'
            simp at hx'
            subst hx'
            obtain ⟨c, hc, hcx⟩ := List.mem_map.mp hx
            obtain ⟨cid', hcid', _, hseen⟩ := h.2 c hc
            rw [hcid', hid] at hcx
            obtain rfl : cid' = cid := by injection hcx
            exact h2 hseen
          · intro c hc
            rw [List.mem_append] at hc
            cases hc with
            | inl hc =>
              obtain ⟨cid', ha, hb, hc'⟩ := h.2 c hc
              exact ⟨cid', ha, hb, List.mem_cons_of_mem cid hc'⟩
            | inr hc =>
              simp at hc
              subst hc
              exact ⟨cid, hid, h1, List.mem_cons_self cid _⟩

theorem ctx_fill_shape (k : Nat) (l : List Chunk) :
    ∀ st, ∃ ext, (ctx_fill k l st).1 = st.1 ++ ext ∧ ext.Sublist l := by
  induction l with
  | nil => intro st; exact ⟨[], by simp [ctx_fill]⟩
  | cons c rest ih =>
    intro st
    obtain ⟨e1, he1, hs1⟩ := ctx_add_shape st (some c)
    have step : ctx_fill k (c :: rest) st =
        if k ≤ (ctx_add st (some c)).1.length then ctx_add st (some c)
        else ctx_fill k rest (ctx_add st (some c)) := rfl
    by_cases hk : k ≤ (ctx_add st (some c)).1.length
    · refine ⟨e1, ?_, hs1.trans ((List.nil_sublist rest).cons₂ c)⟩
      rw [step, if_pos hk, he1]
    · obtain ⟨e2, he2, hs2⟩ := ih (ctx_add st (some c))
      refine ⟨e1 ++ e2, ?_, by simpa using List.Sublist.append hs1 hs2⟩
      rw [step, if_neg hk, he2, he1, List.append_assoc]

theorem ctx_fill_inv (k : Nat) (l : List Chunk) :
    ∀ st, ctx_inv st → ctx_inv (ctx_fill k l st) := by
  induction l with
  | nil => intro st h; exact h
  | cons c rest ih =>
    intro st h
    have step : ctx_fill k (c :: rest) st =
        if k ≤ (ctx_add st (some c)).1.length then ctx_add st (some c)
        else ctx_fill k rest (ctx_add st (some c)) := rfl
    by_cases hk : k ≤ (ctx_add st (some c)).1.length
    · rw [step, if_pos hk]; exact ctx_add_inv st (some c) h
    · rw [step, if_neg hk]; exact ih (ctx_add st (some c)) (ctx_add_inv st (some c) h)

/-- Decomposition of `_safe_context_set`'s output: a priority segment
(a sublist of the found age/income/rationale chunks, in that order)
followed by a fill segment (a sublist of the retrieved list), truncated
at `top_k`. -/
theorem safe_context_set_decomp (retrieved : List Chunk)
    (a i r : Option Chunk) (k : Nat) :
    ∃ pri fl : List Chunk,
      safe_context_set retrieved a i r k = (pri ++ fl).take k ∧
      pri.Sublist (a.toList ++ (i.toList ++ r.toList)) ∧
      fl.Sublist retrieved := by
  obtain ⟨ea, h1, s1⟩ := ctx_add_shape ([], []) a
  obtain ⟨ei, h2, s2⟩ := ctx_add_shape (ctx_add ([], []) a) i
  obtain ⟨er, h3, s3⟩ := ctx_add_shape (ctx_add (ctx_add ([], []) a) i) r
  obtain ⟨ext, h4, s4⟩ :=
    ctx_fill_shape k retrieved (ctx_add (ctx_add (ctx_add ([], []) a) i) r)
  refine ⟨(ea ++ ei) ++ er, ext, ?_, ?_, s4⟩
  · unfold safe_context_set
    rw [h4, h3, h2, h1]
    simp [List.append_assoc]
  · have h : ((ea ++ ei) ++ er).Sublist ((a.toList ++ i.toList) ++ r.toList) :=
      List.Sublist.append (List.Sublist.append s1 s2) s3
    simpa [List.append_assoc] using h

theorem safe_context_set_nodup (retrieved : List Chunk)
    (a i r : Option Chunk) (k : Nat) :
    ((safe_context_set retrieved a i r k).map Chunk.chunk_id).Nodup := by
  have hinv : ctx_inv (ctx_fill k retrieved
      (ctx_add (ctx_add (ctx_add ([], []) a) i) r)) :=
    ctx_fill_inv k retrieved _
      (ctx_add_inv _ r (ctx_add_inv _ i (ctx_add_inv _ a ctx_inv_nil)))
  unfold safe_context_set
  rw [List.map_take]
  exact List.Nodup.sublist (List.take_sublist _ _) hinv.1

/-- Every member of the assembled context carries a non-empty chunk id. -/
theorem safe_context_set_mem_id (retrieved : List Chunk)
    (a i r : Option Chunk) (k : Nat) (c : Chunk)
    (hc : c ∈ safe_context_set retrieved a i r k) :
    ∃ cid, c.chunk_id = some cid ∧ ¬ (cid = "") := by
  have hinv : ctx_inv (ctx_fill k retrieved
      (ctx_add (ctx_add (ctx_add ([], []) a) i) r)) :=
    ctx_fill_inv k retrieved _
      (ctx_add_inv _ r (ctx_add_inv _ i (ctx_add_inv _ a ctx_inv_nil)))
  unfold safe_context_set at hc
  have hc' := (List.take_sublist k _).subset hc
  obtain ⟨cid, ha, hb, _⟩ := hinv.2 c hc'
  exact ⟨cid, ha, hb⟩

/-- Every member of the assembled context is a found priority chunk or a
member of the retrieved fill list. -/
theorem safe_context_set_mem (retrieved : List Chunk)
    (a i r : Option Chunk) (k : Nat) (c : Chunk)
    (hc : c ∈ safe_context_set retrieved a i r k) :
    c ∈ a.toList ++ (i.toList ++ r.toList) ∨ c ∈ retrieved := by
  obtain ⟨pri, fl, heq, hpri, hfl⟩ := safe_context_set_decomp retrieved a i r k
  rw [heq] at hc
  have hm := (List.take_sublist k _).subset hc
  rw [List.mem_append] at hm
  cases hm with
  | inl h => exact Or.inl (hpri.subset h)
  | inr h => exact Or.inr (hfl.subset h)

/-! ### Claim theorems: context assembly (C2, C10) -/

/-- Claim C2: for every retrieved list, any optional priority chunks and
any `top_k`, the assembled context has at most `top_k` entries, no
chunk id occurs twice, the found priority chunks occupy the leading
slots in the fixed order age, income, rationale, and the remaining
entries preserve the retrieval rank order of the fill list. -/
theorem context_set_invariants (retrieved : List Chunk)
    (a i r : Option Chunk) (k : Nat) :
    (safe_context_set retrieved a i r k).length ≤ k ∧
    ((safe_context_set retrieved a i r k).map Chunk.chunk_id).Nodup ∧
    ∃ pri fl : List Chunk,
      safe_context_set retrieved a i r k = (pri ++ fl).take k ∧
      pri.Sublist (a.toList ++ (i.toList ++ r.toList)) ∧
      fl.Sublist retrieved := by
  refine ⟨?_, safe_context_set_nodup retrieved a i r k,
    safe_context_set_decomp retrieved a i r k⟩
  unfold safe_context_set
  rw [List.length_take]
  exact min_le_left _ _

/-- Claim C10: a chunk whose `chunk_id` is missing or empty is silently
dropped by the insertion step and never appears in the ContextSet,
whether supplied as a priority chunk or as retrieved fill. -/
theorem context_set_drops_empty_ids (retrieved : List Chunk)
    (a i r : Option Chunk) (k : Nat) (c : Chunk)
    (h : c.chunk_id = none ∨ c.chunk_id = some "") :
    ¬ (c ∈ safe_context_set retrieved a i r k) := by
  intro hc
  obtain ⟨cid, ha, hb⟩ := safe_context_set_mem_id retrieved a i r k c hc
  cases h with
  | inl h => rw [h] at ha; exact Option.noConfusion ha
  | inr h =>
    rw [h] at ha
    injection ha with ha'
    exact hb ha'.symm

/-- Witness for C10: a chunk with an empty id, supplied both as the age
priority chunk and as retrieved fill, never appears in the output. -/
theorem context_set_drops_empty_ids_witness :
    ¬ (c_empty_id ∈ safe_context_set [c_empty_id] (some c_empty_id) none none 5) :=
  context_set_drops_empty_ids [c_empty_id] (some c_empty_id) none none 5
    c_empty_id (Or.inr rfl)

/-! ### Retrieval ordering lemmas (shared helpers) -/

theorem pair_dominates_of_ge (p q : Int × Nat) (h : tuple_ge p q = true) :
    pair_dominates p q := by
  obtain ⟨a, b⟩ := p
  obtain ⟨c, d⟩ := q
  simp [tuple_ge] at h
  unfold pair_dominates
  constructor
  · rcases h with h | ⟨h, _⟩
    · exact le_of_lt h
    · exact le_of_eq h.symm
  · intro he
    rcases h with h | ⟨_, h⟩
    · simp at he ⊢
      omega
    · exact h

theorem pair_dominates_of_not_ge (p q : Int × Nat) (h : tuple_ge p q = false) :
    pair_dominates q p := by
  obtain ⟨a, b⟩ := p
  obtain ⟨c, d⟩ := q
  simp [tuple_ge] at h
  unfold pair_dominates
  simp at h ⊢
  omega

theorem pair_dominates_trans (p q s : Int × Nat)
    (h1 : pair_dominates p q) (h2 : pair_dominates q s) : pair_dominates p s := by
  obtain ⟨a, b⟩ := p
  obtain ⟨c, d⟩ := q
  obtain ⟨e, f⟩ := s
  unfold pair_dominates at h1 h2 ⊢
  simp at h1 h2 ⊢
  omega

theorem mem_insert_pair_desc (p x : Int × Nat) (l : List (Int × Nat)) :
    x ∈ insert_pair_desc p l ↔ x = p ∨ x ∈ l := by
  induction l with
  | nil => simp [insert_pair_desc]
  | cons q t ih =>
    by_cases h : tuple_ge p q = true
    · simp only [insert_pair_desc, h, if_true, List.mem_cons]
    · rw [Bool.not_eq_true] at h
      simp only [insert_pair_desc, h, Bool.false_eq_true, if_false, List.mem_cons, ih]
      tauto

theorem pairwise_insert_pair_desc (p : Int × Nat) (l : List (Int × Nat))
    (h : l.Pairwise pair_dominates) :
    (insert_pair_desc p l).Pairwise pair_dominates := by
  induction l with
  | nil => simp [insert_pair_desc]
  | cons q t ih =>
    rw [List.pairwise_cons] at h
    by_cases hge : tuple_ge p q = true
    · have hpq := pair_dominates_of_ge p q hge
      have : (insert_pair_desc p (q :: t)) = p :: q :: t := by
        simp [insert_pair_desc, hge]
      rw [this, List.pairwise_cons]
      constructor
      · intro x hx
        rcases List.mem_cons.mp hx with hx | hx
        · exact hx ▸ hpq
        · exact pair_dominates_trans p q x hpq (h.1 x hx)
      · rw [List.pairwise_cons]
        exact h
    · have hqp := pair_dominates_of_not_ge p q (Bool.not_eq_true _ |>.mp hge)
      have : (insert_pair_desc p (q :: t)) = q :: insert_pair_desc p t := by
        simp [insert_pair_desc, Bool.not_eq_true _ |>.mp hge]
      rw [this, List.pairwise_cons]
      constructor
      · intro x hx
        rcases (mem_insert_pair_desc p x t).mp hx with hx | hx
        · exact hx ▸ hqp
        · exact h.1 x hx
      · exact ih h.2

theorem sort_pairs_desc_pairwise (l : List (Int × Nat)) :
    (sort_pairs_desc l).Pairwise pair_dominates := by
  induction l with
  | nil => simp [sort_pairs_desc]
  | cons p t ih => exact pairwise_insert_pair_desc p (sort_pairs_desc t) ih

/-! ### Claim theorems: retrieval (C7, C8) -/

/-- Counterexample to claim C7: two candidates with equal cosine
similarity are ordered with the LARGER corpus index first (Python's
`sort(reverse=True)` on `(sim, idx)` tuples reverses the index
tie-break), so the smaller-index candidate does not precede. -/
theorem retrieve_tie_larger_index_first :
    retrieve_sorted rt_tie "q" 2 = [(7, 1), (7, 0)] ∧
    HybridRetriever.retrieve rt_tie "q" 2 2 = [c_r1, c_r0] ∧
    ¬ (c_r0 = c_r1) ∧
    rt_tie.semSim "q" 0 = rt_tie.semSim "q" 1 := by
  refine ⟨by decide, by decide, by decide, rfl⟩

/-- Claim C7 as amended: retrieval step 3 sorts candidates by descending
similarity with ties broken by original corpus index DESCENDING (not
ascending), and takes the first `top_k` of that order. -/
theorem retrieve_sorted_order (rt : HybridRetriever) (query : String)
    (top_k bm25_top_n : Nat) :
    (retrieve_sorted rt query bm25_top_n).Pairwise pair_dominates ∧
    rt.retrieve query top_k bm25_top_n =
      ((retrieve_sorted rt query bm25_top_n).take top_k).map
        (fun p => rt.chunks.getD p.2 ⟨none, none, none⟩) := by
  exact ⟨sort_pairs_desc_pairwise (retrieve_scored rt query bm25_top_n), rfl⟩

/-- Claim C8: on an empty corpus the lexical scoring yields the empty
(vacuously all-zero) score list without raising, and retrieval returns an
empty RankedResult rather than an error. -/
theorem retrieve_empty_corpus (rt : HybridRetriever) (query : String)
    (top_k bm25_top_n : Nat) (tq : List String) (h : rt.chunks = []) :
    bm25_scores_list rt tq = [] ∧
    (∀ x ∈ bm25_scores_list rt tq, x = 0) ∧
    rt.retrieve query top_k bm25_top_n = [] := by
  obtain ⟨chs, lex, sem⟩ := rt
  simp only at h
  subst h
  refine ⟨?_, ?_, ?_⟩ <;>
    simp [bm25_scores_list, HybridRetriever.retrieve, retrieve_sorted,
      retrieve_scored, slice_last, argsort_asc, sort_pairs_desc]

/-- Witness for C8: the concrete empty-corpus retriever. -/
theorem retrieve_empty_corpus_witness :
    bm25_scores_list rt_empty [] = [] ∧
    (∀ x ∈ bm25_scores_list rt_empty [], x = 0) ∧
    rt_empty.retrieve "query" 5 10 = [] :=
  retrieve_empty_corpus rt_empty "query" 5 10 [] rfl

/-! ### String containment lemmas (shared helpers) -/

theorem prefixCheck_iff (p : List Char) :
    ∀ l, prefixCheck p l = true ↔ ∃ t, p ++ t = l := by
  induction p with
  | nil => intro l; simp [prefixCheck]
  | cons a as ih =>
    intro l
    cases l with
    | nil => simp [prefixCheck]
    | cons b bs =>
      simp only [prefixCheck, Bool.and_eq_true, decide_eq_true_eq, ih bs,
        List.cons_append, List.cons.injEq]
      constructor
      · rintro ⟨rfl, t, rfl⟩
        exact ⟨t, rfl, rfl⟩
      · rintro ⟨t, rfl, rfl⟩
        exact ⟨rfl, t, rfl⟩

theorem containsSeq_iff (pat : List Char) :
    ∀ l, containsSeq pat l = true ↔ ∃ u v, u ++ (pat ++ v) = l := by
  intro l
  induction l with
  | nil =>
    simp only [containsSeq, List.isEmpty_iff]
    constructor
    · rintro rfl
      exact ⟨[], [], rfl⟩
    · rintro ⟨u, v, h⟩
      rcases List.append_eq_nil.mp h with ⟨rfl, h2⟩
      exact (List.append_eq_nil.mp h2).1
  | cons c cs ih =>
    simp only [containsSeq, Bool.or_eq_true, prefixCheck_iff, ih]
    constructor
    · rintro (⟨t, ht⟩ | ⟨u, v, hv⟩)
      · exact ⟨[], t, by simpa using ht⟩
      · exact ⟨c :: u, v, by rw [List.cons_append, hv]⟩
    · rintro ⟨u, v, h⟩
      cases u with
      | nil => exact Or.inl ⟨v, by simpa using h⟩
      | cons x u' =>
        rw [List.cons_append] at h
        injection h with h1 h2
        exact Or.inr ⟨u', v, h2⟩

theorem containsSeq_append_right (pat s t : List Char)
    (h : containsSeq pat t = true) : containsSeq pat (s ++ t) = true := by
  rw [containsSeq_iff] at h ⊢
  obtain ⟨u, v, rfl⟩ := h
  exact ⟨s ++ u, v, by simp⟩

theorem map_fixed_eq (σ : Char → Char) :
    ∀ pat : List Char, (∀ c ∈ pat, σ c = c) → pat.map σ = pat := by
  intro pat
  induction pat with
  | nil => intro _; rfl
  | cons a as ih =>
    intro hfix
    simp only [List.map_cons]
    rw [hfix a (List.mem_cons_self a as),
      ih (fun c hc => hfix c (List.mem_cons_of_mem a hc))]

theorem containsSeq_map (σ : Char → Char) (pat l : List Char)
    (hfix : ∀ c ∈ pat, σ c = c) (h : containsSeq pat l = true) :
    containsSeq pat (l.map σ) = true := by
  rw [containsSeq_iff] at h ⊢
  obtain ⟨u, v, rfl⟩ := h
  refine ⟨u.map σ, v.map σ, ?_⟩
  simp [List.map_append, map_fixed_eq σ pat hfix]

theorem containsSeq_fold_replace (pat : List Char) (ds : List Char) :
    ∀ l, (∀ ch ∈ ds, ∀ c ∈ pat, ¬ (c = ch)) → containsSeq pat l = true →
    containsSeq pat (ds.foldl (fun acc ch => replace_char ch '-' acc) l) = true := by
  induction ds with
  | nil => intro l _ h; exact h
  | cons ch ds' ih =>
    intro l hd h
    simp only [List.foldl_cons]
    refine ih (replace_char ch '-' l)
      (fun e he c hc => hd e (List.mem_cons_of_mem ch he) c hc) ?_
    refine containsSeq_map _ pat l ?_ h
    intro c hc
    have : ¬ (c = ch) := hd ch (List.mem_cons_self ch ds') c hc
    simp [this]

theorem replaceToDash_cons_ne (c : Char) (cs : List Char) (hc : ¬ (c = ' ')) :
    replaceToDash (c :: cs) = c :: replaceToDash cs := by
  rcases cs with _ | ⟨x, _ | ⟨y, _ | ⟨z, rest⟩⟩⟩
  · rfl
  · rfl
  · rfl
  · have hrw : replaceToDash (c :: x :: y :: z :: rest) =
        if c = ' ' ∧ x = 't' ∧ y = 'o' ∧ z = ' '
        then '-' :: replaceToDash rest
        else c :: replaceToDash (x :: y :: z :: rest) := rfl
    rw [hrw, if_neg]
    intro h
    exact hc h.1

/-- An occurrence of `55-64` survives the `" to " → "-"` replacement scan:
the pattern `\x20to\x20` shares no character with `55-64`, so no
replacement can overlap an occurrence. -/
theorem replaceToDash_pres_55_64 :
    ∀ l : List Char, (∃ u v, u ++ ('5' :: '5' :: '-' :: '6' :: '4' :: v) = l) →
    ∃ u v, u ++ ('5' :: '5' :: '-' :: '6' :: '4' :: v) = replaceToDash l := by
  have H : ∀ n : Nat, ∀ l : List Char, l.length ≤ n →
      (∃ u v, u ++ ('5' :: '5' :: '-' :: '6' :: '4' :: v) = l) →
      ∃ u v, u ++ ('5' :: '5' :: '-' :: '6' :: '4' :: v) = replaceToDash l := by
    intro n
    induction n with
    | zero =>
      intro l hlen ⟨u, v, hl⟩
      have := congrArg List.length hl
      simp at this
      omega
    | succ n ihn =>
      intro l hlen ⟨u, v, hl⟩
      rcases l with _ | ⟨c1, _ | ⟨c2, _ | ⟨c3, _ | ⟨c4, rest⟩⟩⟩⟩
      · have := congrArg List.length hl
        simp at this
      · have := congrArg List.length hl
        simp at this
        omega
      · have := congrArg List.length hl
        simp at this
        omega
      · have := congrArg List.length hl
        simp at this
        omega
      · have hrw : replaceToDash (c1 :: c2 :: c3 :: c4 :: rest) =
            if c1 = ' ' ∧ c2 = 't' ∧ c3 = 'o' ∧ c4 = ' '
            then '-' :: replaceToDash rest
            else c1 :: replaceToDash (c2 :: c3 :: c4 :: rest) := rfl
      
        by_cases hcond : c1 = ' ' ∧ c2 = 't' ∧ c3 = 'o' ∧ c4 = ' '
        · rw [hrw, if_pos hcond]
          rcases u with _ | ⟨x1, _ | ⟨x2, _ | ⟨x3, _ | ⟨x4, u'⟩⟩⟩⟩
          · simp only [List.nil_append, List.cons.injEq] at hl
            rw [← hl.1] at hcond
            simp at hcond
          · simp only [List.cons_append, List.nil_append, List.cons.injEq] at hl
            rw [← hl.2.1] at hcond
            simp at hcond
          · simp only [List.cons_append, List.nil_append, List.cons.injEq] at hl
            rw [← hl.2.2.1] at hcond
            simp at hcond
          · simp only [List.cons_append, List.nil_append, List.cons.injEq] at hl
            rw [← hl.2.2.2.1] at hcond
            simp at hcond
          · simp only [List.cons_append, List.cons.injEq] at hl
            obtain ⟨_, _, _, _, hrest⟩ := hl
            have hlen' : rest.length ≤ n := by
              have := congrArg List.length hrest
              simp at hlen
              omega
            obtain ⟨u2, v2, h2⟩ := ihn rest hlen' ⟨u', v, hrest⟩
            exact ⟨'-' :: u2, v2, by rw [List.cons_append, h2]⟩
        · rw [hrw, if_neg hcond]
          rcases u with _ | ⟨x, u'⟩
          · simp only [List.nil_append, List.cons.injEq] at hl
            obtain ⟨h1, h2, h3, h4, hrest⟩ := hl
            subst h1; subst h2; subst h3; subst h4
            have e1 : replaceToDash ('5' :: '-' :: '6' :: rest) =
                '5' :: replaceToDash ('-' :: '6' :: rest) :=
              replaceToDash_cons_ne '5' _ (by decide)
            have e2 : replaceToDash ('-' :: '6' :: rest) =
                '-' :: replaceToDash ('6' :: rest) :=
              replaceToDash_cons_ne '-' _ (by decide)
            have e3 : replaceToDash ('6' :: rest) =
                '6' :: replaceToDash rest :=
              replaceToDash_cons_ne '6' _ (by decide)
            rw [e1, e2, e3, ← hrest]
            have e4 : replaceToDash ('4' :: v) = '4' :: replaceToDash v :=
              replaceToDash_cons_ne '4' _ (by decide)
            rw [e4]
            exact ⟨[], replaceToDash v, rfl⟩
          · simp only [List.cons_append, List.cons.injEq] at hl
            obtain ⟨hx, htail⟩ := hl
            have hlen' : (c2 :: c3 :: c4 :: rest).length ≤ n := by
              simp at hlen ⊢
              omega
            obtain ⟨u2, v2, h2⟩ := ihn (c2 :: c3 :: c4 :: rest) hlen' ⟨u', v, htail⟩
            exact ⟨c1 :: u2, v2, by rw [List.cons_append, h2]⟩
  intro l
  exact H l.length l (Nat.le_refl _)

/-- A `55-64` occurrence in the raw text survives normalization. -/
theorem normalize_contains_55_64 (s : String)
    (h : str_contains s "55-64" = true) :
    str_contains (normalize_age_text s) "55-64" = true := by
  unfold str_contains at h ⊢
  show containsSeq "55-64".data
    (replaceToDash (dash_chars.foldl (fun acc ch => replace_char ch '-' acc)
      (s.data.map Char.toLower))) = true
  have hpat : "55-64".data = ['5', '5', '-', '6', '4'] := by decide
  have h1 : containsSeq "55-64".data (s.data.map Char.toLower) = true := by
    refine containsSeq_map Char.toLower _ s.data ?_ h
    rw [hpat]
    decide
  have h2 : containsSeq "55-64".data
      (dash_chars.foldl (fun acc ch => replace_char ch '-' acc)
        (s.data.map Char.toLower)) = true := by
    refine containsSeq_fold_replace _ dash_chars _ ?_ h1
    rw [hpat]
    decide
  rw [hpat] at h2 ⊢
  rw [containsSeq_iff] at h2 ⊢
  have h2' : ∃ u v, u ++ ('5' :: '5' :: '-' :: '6' :: '4' :: v) =
      dash_chars.foldl (fun acc ch => replace_char ch '-' acc)
        (s.data.map Char.toLower) := by
    simpa using h2
  simpa using replaceToDash_pres_55_64 _ h2'

/-- A `55-64` occurrence in the raw text shows up in the normalized
heading-plus-text haystack of the leakage filter. -/
theorem contains_55_64_haystack (c : Chunk)
    (h : str_contains (c.text.getD "") "55-64" = true) :
    str_contains (age_haystack c) "55-64" = true := by
  have h1 := normalize_contains_55_64 (c.text.getD "") h
  unfold str_contains at h1 ⊢
  have e : (age_haystack c).data =
      ((normalize_age_text (c.heading.getD "")).data ++ "\n".data) ++
        (normalize_age_text (c.text.getD "")).data := rfl
  rw [e]
  exact containsSeq_append_right _ _ _ h1

/-- The leakage filter's decision, characterized: a chunk is marked
cross-age exactly when its normalized haystack mentions some supported
band and no normalized variant of the requested range. -/
theorem is_other_age_chunk_iff (c : Chunk) (a : String) :
    is_other_age_chunk c a = true ↔
      ((∃ b ∈ AGE_BANDS, str_contains (age_haystack c) b = true) ∧
       ∀ v ∈ age_variants a,
         str_contains (age_haystack c) (normalize_age_text v) = false) := by
  unfold is_other_age_chunk
  by_cases hb : (AGE_BANDS.any fun band => str_contains (age_haystack c) band) = true
  · rw [if_neg (by simp [hb])]
    constructor
    · intro hno
      have hno' : ¬ ((((age_variants a).map normalize_age_text).any fun v =>
          str_contains (age_haystack c) v) = true) := by
        simpa using hno
      refine ⟨by simpa [List.any_eq_true] using hb, ?_⟩
      intro v hv
      cases hsc : str_contains (age_haystack c) (normalize_age_text v) with
      | false => rfl
      | true =>
        exfalso
        apply hno'
        rw [List.any_eq_true]
        exact ⟨normalize_age_text v, List.mem_map_of_mem _ hv, hsc⟩
    · rintro ⟨_, hall⟩
      simp only [decide_eq_true_eq]
      rw [List.any_eq_true]
      rintro ⟨x, hx, hsc⟩
      obtain ⟨v, hv, rfl⟩ := List.mem_map.mp hx
      rw [hall v hv] at hsc
      exact Bool.noConfusion hsc
  · rw [if_pos hb]
    constructor
    · intro hfalse
      exact absurd hfalse (by simp)
    · rintro ⟨⟨b, hbmem, hbc⟩, _⟩
      exfalso
      apply hb
      rw [List.any_eq_true]
      exact ⟨b, hbmem, hbc⟩

/-- A chunk mentioning no age band is kept by the leakage filter. -/
theorem is_other_false_of_no_band (c : Chunk) (a : String)
    (h : ∀ b ∈ AGE_BANDS, str_contains (age_haystack c) b = false) :
    is_other_age_chunk c a = false := by
  unfold is_other_age_chunk
  rw [if_pos]
  intro hany
  rw [List.any_eq_true] at hany
  obtain ⟨b, hb, hc⟩ := hany
  rw [h b hb] at hc
  exact Bool.noConfusion hc

theorem mem_filter_other_age (retrieved : List Chunk) (a : String) (c : Chunk) :
    c ∈ filter_other_age retrieved a ↔
      c ∈ retrieved ∧ is_other_age_chunk c a = false := by
  unfold filter_other_age
  rw [List.mem_filter]
  simp

/-! ### Claim theorems: leakage filter (C1) -/

/-- Claim C1 as amended: (1) the leakage filter excludes a chunk exactly
when its normalized heading-plus-text mentions at least one supported
age-band literal and mentions none of the normalized accepted variants of
the requested age range; (2) a chunk whose text contains the literal
`55-64` and whose normalized haystack matches no accepted variant of
`18-24` never appears in the assembled ContextSet for an `18-24` request
unless it entered as a priority chunk; (3) a chunk mentioning no age-band
literal is never excluded by the filter. -/
theorem leakage_filter_characterization :
    (∀ (c : Chunk) (a : String), a ∈ SUPPORTED_AGE_RANGES →
      (is_other_age_chunk c a = true ↔
        ((∃ b ∈ AGE_BANDS, str_contains (age_haystack c) b = true) ∧
         ∀ v ∈ age_variants a,
           str_contains (age_haystack c) (normalize_age_text v) = false))) ∧
    (∀ (c : Chunk) (retrieved : List Chunk) (a i r : Option Chunk) (k : Nat),
      str_contains (c.text.getD "") "55-64" = true →
      (∀ v ∈ age_variants "18-24",
        str_contains (age_haystack c) (normalize_age_text v) = false) →
      c ∈ safe_context_set (filter_other_age retrieved "18-24") a i r k →
      c ∈ a.toList ++ (i.toList ++ r.toList)) ∧
    (∀ (c : Chunk) (a : String),
      (∀ b ∈ AGE_BANDS, str_contains (age_haystack c) b = false) →
      is_other_age_chunk c a = false) := by
  refine ⟨fun c a _ => is_other_age_chunk_iff c a, ?_,
    fun c a h => is_other_false_of_no_band c a h⟩
  intro c retrieved a i r k h55 hvar hc
  have hband : str_contains (age_haystack c) "55-64" = true :=
    contains_55_64_haystack c h55
  have hother : is_other_age_chunk c "18-24" = true := by
    rw [is_other_age_chunk_iff]
    exact ⟨⟨"55-64", by decide, hband⟩, hvar⟩
  rcases safe_context_set_mem _ a i r k c hc with hmem | hmem
  · exact hmem
  · rw [mem_filter_other_age] at hmem
    rw [hmem.2] at hother
    exact Bool.noConfusion hother

/-- Counterexample to C1 as stated: a chunk whose text contains the
literal `55-64` but also mentions `18-24` is KEPT by the leakage filter
(the code only checks whether any requested variant matches) and appears
in the fill portion of the ContextSet with no priority chunk involved. -/
theorem leakage_filter_counterexample :
    str_contains (c_both_bands.text.getD "") "55-64" = true ∧
    is_other_age_chunk c_both_bands "18-24" = false ∧
    safe_context_set (filter_other_age [c_both_bands] "18-24")
      none none none 5 = [c_both_bands] :=
  ⟨by decide, by decide, by decide⟩

/-- Witness for the amended C1: a general chunk is kept, and a pure
`55-64` chunk reaching the ContextSet for an `18-24` request can only be
there as a priority chunk. -/
theorem leakage_filter_witness :
    is_other_age_chunk c_general "18-24" = false ∧
    c_only_55 ∈ (some c_only_55).toList ++
      ((none : Option Chunk).toList ++ (none : Option Chunk).toList) := by
  constructor
  · exact leakage_filter_characterization.2.2 c_general "18-24" (by decide)
  · exact leakage_filter_characterization.2.1 c_only_55 [c_only_55]
      (some c_only_55) none none 5 (by decide) (by decide) (by decide)

/-! ### Claim theorems: age priority chunk (C9) -/

theorem best_chunk_first_match (needles : List String) :
    ∀ (chunks : List Chunk) (c : Chunk),
    best_chunk_by_text chunks needles = some c →
    ∃ pre post, chunks = pre ++ c :: post ∧
      matches_any (chunk_heading_text c) needles = true ∧
      ∀ c' ∈ pre, matches_any (chunk_heading_text c') needles = false := by
  intro chunks
  induction chunks with
  | nil => intro c h; exact absurd h (by simp [best_chunk_by_text])
  | cons d rest ih =>
    intro c h
    have step : best_chunk_by_text (d :: rest) needles =
        if matches_any (chunk_heading_text d) needles then some d
        else best_chunk_by_text rest needles := rfl
    by_cases hm : matches_any (chunk_heading_text d) needles = true
    · rw [step, if_pos hm] at h
      injection h with h'
      subst h'
      exact ⟨[], rest, rfl, hm, by simp⟩
    · rw [step, if_neg hm] at h
      obtain ⟨pre, post, heq, hc, hall⟩ := ih c h
      refine ⟨d :: pre, post, by rw [heq]; rfl, hc, ?_⟩
      intro c' hc'
      rcases List.mem_cons.mp hc' with rfl | hc'
      · simpa using hm
      · exact hall c' hc'

/-- Claim C9 as amended: the age priority chunk is the first chunk in
corpus order whose heading or text contains any accepted surface variant,
where for a hyphenated range `A-B` the accepted variants are exactly the
hyphen form, the en-dash form, `A to B`, `A to B years`, `A-B years` and
`A–B years` — em-dash and minus-sign dash forms are NOT accepted by this
matcher (no dash normalization is applied there); the en-dash form is
matched, and the earliest corpus-order match wins. -/
theorem age_priority_first_match :
    (∀ (chunks : List Chunk) (needles : List String) (c : Chunk),
      best_chunk_by_text chunks needles = some c →
      ∃ pre post, chunks = pre ++ c :: post ∧
        matches_any (chunk_heading_text c) needles = true ∧
        ∀ c' ∈ pre, matches_any (chunk_heading_text c') needles = false) ∧
    (age_variants "18-24" =
      ["18-24", "18–24", "18 to 24", "18 to 24 years", "18-24 years",
       "18–24 years"] ∧
     age_variants "25-34" =
      ["25-34", "25–34", "25 to 34", "25 to 34 years", "25-34 years",
       "25–34 years"] ∧
     age_variants "35-44" =
      ["35-44", "35–44", "35 to 44", "35 to 44 years", "35-44 years",
       "35–44 years"] ∧
     age_variants "45-54" =
      ["45-54", "45–54", "45 to 54", "45 to 54 years", "45-54 years",
       "45–54 years"] ∧
     age_variants "55-64" =
      ["55-64", "55–64", "55 to 64", "55 to 64 years", "55-64 years",
       "55–64 years"] ∧
     age_variants "65+" = ["65+"]) ∧
    best_chunk_by_text [c_en_dash] (age_variants "45-54") = some c_en_dash :=
  ⟨fun chunks needles c h => best_chunk_first_match needles chunks c h,
   ⟨by decide, by decide, by decide, by decide, by decide, by decide⟩,
   by decide⟩

/-- Counterexample to C9 as stated: chunks whose headings carry the
minus-sign and em-dash forms of `45-54` (both collapse to `45-54` under
dash normalization, so the spec counts them as accepted variants) are NOT
matched by the priority-chunk selector. -/
theorem age_priority_dash_counterexample :
    str_contains (normalize_age_text (chunk_heading_text c_minus_dash))
      "45-54" = true ∧
    str_contains (normalize_age_text (chunk_heading_text c_em_dash))
      "45-54" = true ∧
    best_chunk_by_text [c_minus_dash, c_em_dash] (age_variants "45-54") = none :=
  ⟨by decide, by decide, by decide⟩

/-- Witness for the amended C9: the en-dash chunk is selected and is the
earliest (here only) match. -/
theorem age_priority_first_match_witness :
    ∃ pre post, [c_en_dash] = pre ++ c_en_dash :: post ∧
      matches_any (chunk_heading_text c_en_dash) (age_variants "45-54") = true ∧
      ∀ c' ∈ pre, matches_any (chunk_heading_text c') (age_variants "45-54") = false :=
  age_priority_first_match.1 [c_en_dash] (age_variants "45-54") c_en_dash (by decide)

/-- Witness for the amended C7 at a concrete retriever. -/
theorem retrieve_sorted_order_witness :
    (retrieve_sorted rt_tie "q" 2).Pairwise pair_dominates ∧
    rt_tie.retrieve "q" 2 2 =
      ((retrieve_sorted rt_tie "q" 2).take 2).map
        (fun p => rt_tie.chunks.getD p.2 ⟨none, none, none⟩) :=
  retrieve_sorted_order rt_tie "q" 2 2
